import Mathlib

/-!
Verification of the go-chartjs chart document builder and encoder
(`chart.go`) against its natural-language specification.

The Go source is shallowly embedded: byte buffers become `List Char`
(the source only ever emits ASCII), Go `float64` values become an
inductive `GoFloat` that is either NaN or an exact rational (every
finite float64 is a rational), fallible Go functions returning
`([]byte, error)` become `Except String (List Char)` carrying the exact
Go error message strings, and a `%`-style numeric format string is
embedded by its denotation, a function `GoFloat → List Char`
(`fmt.Sprintf` with a single verb substitutes exactly the formatted
argument into the surrounding literal text).  The default process-wide
format `"%.2f"` is embedded concretely as `fmtF2`.  All digit-level
arithmetic is phrased on a rational's numerator and denominator so that
every encoder below evaluates inside the kernel.

The `types` package of the repository (tri-state boolean `types.Bool`,
`types.RGBA`) is not part of the given source tree; those two types are
modelled from the spec where noted.
-/

deriving instance DecidableEq for Except

/-- Decimal digit character for `k ≤ 9` (`'0'` … `'9'`). -/
def digitChar (k : Nat) : Char := Char.ofNat (48 + k)

/-- Is `c` an ASCII decimal digit? -/
def isDigitCh (c : Char) : Bool := decide (48 ≤ c.toNat) && decide (c.toNat ≤ 57)

/-- Decimal digits of `n`, most significant first (fuel-driven; the fuel
`n + 1` always suffices). -/
def natDigitsAux : Nat → Nat → List Char
  | 0, _ => []
  | fuel + 1, n =>
    if n < 10 then [digitChar n]
    else natDigitsAux fuel (n / 10) ++ [digitChar (n % 10)]

/-- Decimal representation of a natural number, e.g. `natDigits 120 = "120"`. -/
def natDigits (n : Nat) : List Char := natDigitsAux (n + 1) n

/-- Decimal digits of the fraction `a / b` (`a < b`), one digit per fuel
step, stopping when the remainder hits zero.  Fuel 1100 covers every
binary fraction representable as a `float64` (the longest expansion, for
2^(-1074), has 1074 fractional digits). -/
def fracDigits : Nat → Nat → Nat → List Char
  | 0, _, _ => []
  | fuel + 1, a, b =>
    if a = 0 then []
    else digitChar (10 * a / b) :: fracDigits fuel (10 * a % b) b

/-- Plain decimal encoding of the nonnegative fraction `a / b` (`0 < b`):
integer part, then a fractional part when nonzero. -/
def encodeFrac (a b : Nat) : List Char :=
  let ds := fracDigits 1100 (a % b) b
  natDigits (a / b) ++ (if ds = [] then [] else '.' :: ds)

/-- Plain decimal encoding of a rational number, modelling the JSON
number text Go `encoding/json` produces for a finite `float64`
(Go switches to exponent notation outside `[1e-6, 1e21)`; none of the
verified claims fixes the bytes of such a field, so plain decimals are
used throughout). -/
def encodeRat (q : ℚ) : List Char :=
  if q.num < 0 then '-' :: encodeFrac q.num.natAbs q.den
  else encodeFrac q.num.toNat q.den

/-- Comma-join a list of byte fragments, mirroring the Go pattern
`if i > 0 { buf.WriteRune(',') }` inside an emit loop. -/
def joinComma : List (List Char) → List Char
  | [] => []
  | [s] => s
  | s :: rest => s ++ ',' :: joinComma rest

/-- A Go `float64`: NaN or a finite value (every finite `float64` is an
exact rational).  Infinities play no role in any claim and are omitted. -/
inductive GoFloat where
  | nan : GoFloat
  | num : ℚ → GoFloat
deriving DecidableEq

/-- The `math.IsNaN`. -/
def GoFloat.isNaN : GoFloat → Bool
  | .nan => true
  | .num _ => false

/-- The denotation of a Go numeric format string: what `fmt.Sprintf`
substitutes for its single verb. -/
abbrev GoFmt := GoFloat → List Char

/-- Digit pair with leading zero, used for the two forced decimals of
`"%.2f"`. -/
def pad2 (n : Nat) : List Char := if n < 10 then '0' :: natDigits n else natDigits n

/-- The `100 * a / b` rounded to the nearest integer, ties to even (the
rounding `fmt` applies when trimming to two decimals). -/
def round2 (a b : Nat) : Nat :=
  let t := 100 * a
  let i := t / b
  let r := t % b
  if 2 * r < b then i
  else if b < 2 * r then i + 1
  else if i % 2 = 0 then i else i + 1

/-- The `"%.2f"` applied to the nonnegative fraction `a / b`: two forced
decimals. -/
def fmtF2frac (a b : Nat) : List Char :=
  let n := round2 a b
  natDigits (n / 100) ++ '.' :: pad2 (n % 100)

/-- Denotation of the default format string `"%.2f"`
(the `XFloatFormat` / `YFloatFormat` defaults in the source);
`fmt.Sprintf("%.2f", math.NaN())` yields `"NaN"`. -/
def fmtF2 : GoFmt
  | .nan => ("NaN").data
  | .num q =>
    if q.num < 0 then '-' :: fmtF2frac q.num.natAbs q.den
    else fmtF2frac q.num.toNat q.den

/-- The three coordinate sequences exposed by the `Values` interface:
`Xs()`, `Ys()`, `Rs()`. -/
structure ValuesData where
  xs : List GoFloat
  ys : List GoFloat
  rs : List GoFloat
deriving DecidableEq

/-- Error text of `marshalValuesJSON` when X is empty but R is not
(the spec calls this error `InvalidShape`). -/
def badValuesData : String := "chart: bad format of Values data"

/-- Error text when R is present but the axes differ in length
(a `ShapeMismatch` in the spec). -/
def badValuesAllAxes : String :=
  "chart: bad format of Values. All axes must be of the same length"

/-- Error text when Y is present but X/Y differ in length
(a `ShapeMismatch` in the spec). -/
def badValuesXY : String :=
  "chart: bad format of Values. X and Y must be of the same length"

/-- One bubble point `\x7b"x":…,"y":…,"r":…\x7d`; a NaN y becomes
`"y": null` (source line 94). -/
def bubblePointBytes (xformat yformat : GoFmt) (x y r : GoFloat) : List Char :=
  if y.isNaN then
    ("\x7b\"x\":").data ++ xformat x ++ (",\"y\": null,\"r\":").data
      ++ yformat r ++ ("\x7d").data
  else
    ("\x7b\"x\":").data ++ xformat x ++ (",\"y\":").data ++ yformat y
      ++ (",\"r\":").data ++ yformat r ++ ("\x7d").data

/-- One x/y point; a NaN y becomes `"y": null ` with the source's
trailing space before the closing brace (source line 113). -/
def xyPointBytes (xformat yformat : GoFmt) (x y : GoFloat) : List Char :=
  if y.isNaN then
    ("\x7b\"x\":").data ++ xformat x ++ (",\"y\": null \x7d").data
  else
    ("\x7b\"x\":").data ++ xformat x ++ (",\"y\":").data ++ yformat y ++ ("\x7d").data

/-- Pointwise bubble encoding of the loop `for i, x := range xs` with
`ys[i]`, `rs[i]` (only reached once all three lengths agree). -/
def bubblePoints (xf yf : GoFmt) : List GoFloat → List GoFloat → List GoFloat → List (List Char)
  | x :: xs, y :: ys, r :: rs => bubblePointBytes xf yf x y r :: bubblePoints xf yf xs ys rs
  | _, _, _ => []

/-- Pointwise x/y encoding of the loop with `ys[i]`. -/
def xyPoints (xf yf : GoFmt) : List GoFloat → List GoFloat → List (List Char)
  | x :: xs, y :: ys => xyPointBytes xf yf x y :: xyPoints xf yf xs ys
  | _, _ => []

/-- The body of `marshalValuesJSON` after the empty-X substitution:
write `'['`, one of the three shapes, `']'` (source lines 81–135). -/
def marshalValuesBody (xs ys rs : List GoFloat) (xformat yformat : GoFmt) :
    Except String (List Char) :=
  if 0 < rs.length then
    if xs.length ≠ ys.length ∨ xs.length ≠ rs.length then .error badValuesAllAxes
    else .ok (('[' :: joinComma (bubblePoints xformat yformat xs ys rs)) ++ [']'])
  else if 0 < ys.length then
    if xs.length ≠ ys.length then .error badValuesXY
    else .ok (('[' :: joinComma (xyPoints xformat yformat xs ys)) ++ [']'])
  else .ok (('[' :: joinComma (xs.map xformat)) ++ [']'])

/-- The `marshalValuesJSON` (source lines 72–136): when X is empty, R must be
empty too, and the Y sequence is substituted for X with Y cleared. -/
def marshalValuesJSON (v : ValuesData) (xformat yformat : GoFmt) :
    Except String (List Char) :=
  if v.xs.length = 0 then
    if v.rs.length ≠ 0 then .error badValuesData
    else marshalValuesBody v.ys [] v.rs xformat yformat
  else marshalValuesBody v.xs v.ys v.rs xformat yformat

/-- The `chartType` (ordinals 0,1,2 = line, bar, bubble). -/
inductive ChartType where
  | line
  | bar
  | bubble
deriving DecidableEq

/-- The `chartTypes` lookup table used by `chartType.MarshalJSON`. -/
def chartTypeStr : ChartType → String
  | .line => "line"
  | .bar => "bar"
  | .bubble => "bubble"

/-- Is the ordinal of this chart type zero (`Line`)?  Go's `omitempty`
omits an integer-kinded field exactly when its value is 0. -/
def ChartType.isZero : ChartType → Bool
  | .line => true
  | _ => false

/-- The `interpMode` (ordinal 0 reserved/unspecified, 1 = monotone,
2 = default). -/
inductive InterpMode where
  | unspecified
  | monotone
  | interpDefault
deriving DecidableEq

/-- The `interpModes` lookup table. -/
def interpModeStr : InterpMode → String
  | .unspecified => ""
  | .monotone => "monotone"
  | .interpDefault => "default"

/-- The `shape` marker ordinals (0 reserved as empty). -/
inductive Shape where
  | empty
  | circle
  | triangle
  | rect
  | rectRot
  | cross
  | crossRot
  | star
  | linePoint
  | dash
deriving DecidableEq

/-- The `shapes` lookup table. -/
def shapeStr : Shape → String
  | .empty => ""
  | .circle => "circle"
  | .triangle => "triangle"
  | .rect => "rect"
  | .rectRot => "rectRot"
  | .cross => "cross"
  | .crossRot => "crossRot"
  | .star => "star"
  | .linePoint => "line"
  | .dash => "dash"

/-- The `axisType` ordinals. -/
inductive AxisType where
  | category
  | linear
  | log
  | time
  | radial
deriving DecidableEq

/-- The `axisTypes` lookup table. -/
def axisTypeStr : AxisType → String
  | .category => "category"
  | .linear => "linear"
  | .log => "logarithmic"
  | .time => "time"
  | .radial => "radialLinear"

/-- The `axisPosition` (ordinal 0 reserved/unspecified; Bottom=1, Top=2,
Left=3, Right=4). -/
inductive AxisPosition where
  | unspecified
  | bottom
  | top
  | left
  | right
deriving DecidableEq

/-- The `axisPositions` lookup table. -/
def axisPositionStr : AxisPosition → String
  | .unspecified => ""
  | .bottom => "bottom"
  | .top => "top"
  | .left => "left"
  | .right => "right"

/-- Modelled from the spec: the repository's `types` package is not in
the given source tree.  §4.2 describes `types.Bool` as a tri-state
boolean — unset (field omitted under `omitempty`), explicit true, or
explicit false — with `types.True` / `types.False` the two explicit
constants. -/
inductive GoBool where
  | unset
  | yes
  | no
deriving DecidableEq

/-- Modelled from the spec: `types.RGBA` is a color value from the
`types` package (not in the given source tree); it is carried behind a
pointer and serialized as a single JSON value.  The concrete text chosen
here is an `rgba(r,g,b,a)` string; no verified claim depends on the
exact text, only on it being one well-formed JSON string. -/
structure RGBA where
  r : Nat
  g : Nat
  b : Nat
  a : Nat
deriving DecidableEq

/-- Lower-case hex digit. -/
def hexDigit (k : Nat) : Char :=
  if k < 10 then digitChar k else Char.ofNat (97 + (k - 10))

/-- Go `encoding/json` string escaping (with the default HTML escaping):
quote and backslash get a backslash, newline/carriage-return/tab use the
short escapes, other control characters and `<`, `>`, `&` become
`\u00xx`. -/
def escapeChar (c : Char) : List Char :=
  if c = '"' then ['\\', '"']
  else if c = '\\' then ['\\', '\\']
  else if c = '\n' then ['\\', 'n']
  else if c = '\r' then ['\\', 'r']
  else if c = '\t' then ['\\', 't']
  else if c = '<' ∨ c = '>' ∨ c = '&' ∨ c.toNat < 32 then
    ['\\', 'u', '0', '0', hexDigit (c.toNat / 16), hexDigit (c.toNat % 16)]
  else [c]

/-- Escape a whole string body. -/
def escapeString (s : List Char) : List Char := (s.map escapeChar).flatten

/-- A JSON whitespace character (the `ws` of the JSON grammar). -/
def isWsCh (c : Char) : Bool := c = ' ' || c = '\t' || c = '\n' || c = '\r'

/-- A JSON document tree.  A number node carries its rendered token so
that the tree can represent any number text an encoder may emit
(`1.00` as well as `1`); well-formedness (`Json.wf`) requires the token
to match the JSON number grammar.  A `pad` node wraps a value in the
optional whitespace the JSON grammar's `element` production allows
around any value (`element = ws value ws`); well-formedness requires
the padding to be whitespace.  This lets the tree represent fragments
such as `"y": null ` that the series encoder emits around a NaN. -/
inductive Json where
  | null : Json
  | bool : Bool → Json
  | num : List Char → Json
  | str : List Char → Json
  | arr : List Json → Json
  | obj : List (List Char × Json) → Json
  | pad : List Char → Json → List Char → Json

mutual

/-- Serialization of a `Json` tree, exactly as Go `encoding/json` lays
out compact JSON: no whitespace, object fields in list order. -/
def renderJson : Json → List Char
  | .null => ("null").data
  | .bool b => if b then ("true").data else ("false").data
  | .num s => s
  | .str s => '"' :: (escapeString s ++ ['"'])
  | .arr es => ('[' :: joinComma (renderElems es)) ++ [']']
  | .obj fs => ('\x7b' :: joinComma (renderFields fs)) ++ ['\x7d']
  | .pad pre j post => pre ++ (renderJson j ++ post)

def renderElems : List Json → List (List Char)
  | [] => []
  | e :: es => renderJson e :: renderElems es

def renderFields : List (List Char × Json) → List (List Char)
  | [] => []
  | p :: fs => renderField p :: renderFields fs

def renderField : List Char × Json → List Char
  | (k, v) => ('"' :: (escapeString k ++ ['"', ':'])) ++ renderJson v

end

/-- Does `l` start with `'.'` followed by one or more digits — or is it
empty?  (The optional fractional part of a JSON number; the exponent
part, which no encoder here emits, is not modelled.) -/
def fracOk : List Char → Bool
  | [] => true
  | c :: rest => c = '.' && !rest.isEmpty && rest.all isDigitCh

/-- An unsigned JSON number token: `0` or a nonzero-leading digit run,
then an optional fractional part. -/
def unsignedOk : List Char → Bool
  | [] => false
  | c :: rest =>
    if c = '0' then fracOk rest
    else isDigitCh c && fracOk (rest.dropWhile isDigitCh)

/-- A JSON number token (optionally signed). -/
def numToken (s : List Char) : Bool :=
  match s with
  | [] => false
  | c :: rest => if c = '-' then unsignedOk rest else unsignedOk (c :: rest)

mutual

/-- Well-formedness of a `Json` tree: every number node's token matches
the JSON number grammar (strings are escaped by the renderer and are
always well-formed). -/
def Json.wf : Json → Bool
  | .null => true
  | .bool _ => true
  | .num s => numToken s
  | .str _ => true
  | .arr es => Json.wfElems es
  | .obj fs => Json.wfFields fs
  | .pad pre j post => pre.all isWsCh && post.all isWsCh && Json.wf j

def Json.wfElems : List Json → Bool
  | [] => true
  | e :: es => Json.wf e && Json.wfElems es

def Json.wfFields : List (List Char × Json) → Bool
  | [] => true
  | p :: fs => Json.wf p.2 && Json.wfFields fs

end

/-- One struct field of a Go JSON object: present (`some`) or omitted by
`omitempty` (`none`). -/
def jField (name : String) (v : Option Json) : List (List Char × Json) :=
  match v with
  | none => []
  | some j => [(name.data, j)]

/-- A `string` field tagged `omitempty`. -/
def strOpt (s : String) : Option Json :=
  if s = "" then none else some (.str s.data)

/-- A `types.Bool` field tagged `omitempty` (modelled from the spec,
§4.2: unset serializes to nothing, otherwise `true` / `false`). -/
def boolOpt : GoBool → Option Json
  | .unset => none
  | .yes => some (.bool true)
  | .no => some (.bool false)

/-- A `*types.RGBA` value (modelled from the spec): one JSON string. -/
def rgbaJson (c : RGBA) : Json :=
  .str ("rgba(" ++ String.mk (natDigits c.r) ++ "," ++ String.mk (natDigits c.g)
    ++ "," ++ String.mk (natDigits c.b) ++ "," ++ String.mk (natDigits c.a) ++ ")").data

/-- A `float64` field: `json.Marshal` rejects NaN, otherwise emits the
decimal token. -/
def goNum : GoFloat → Except String Json
  | .nan => .error "json: unsupported value: NaN"
  | .num q => .ok (.num (encodeRat q))

/-- An `int` field value. -/
def intJson (n : ℤ) : Json := .num (encodeRat (n : ℚ))

/-- The dynamic `Data interface\x7b\x7d` payload of a Dataset: it may
implement `json.Marshaler` (an arbitrary external implementation,
embedded as the bytes-or-error it would produce), and it may implement
`Values`; a Go value can implement both, either, or neither. -/
structure Payload where
  rawMarshal : Option (Except String (List Char)) := none
  values : Option ValuesData := none

/-- The `Dataset` struct (source lines 172–210); field defaults are the
Go zero values. -/
structure Dataset where
  data : Payload := {}
  type : ChartType := .line
  backgroundColor : Option RGBA := none
  borderColor : Option RGBA := none
  borderWidth : GoFloat := .num 0
  label : String := ""
  fill : GoBool := .unset
  steppedLine : GoBool := .unset
  lineTension : GoFloat := .num 0
  cubicInterpolationMode : InterpMode := .unspecified
  pointBackgroundColor : Option RGBA := none
  pointBorderColor : Option RGBA := none
  pointBorderWidth : GoFloat := .num 0
  pointRadius : GoFloat := .num 0
  pointHitRadius : GoFloat := .num 0
  pointHoverRadius : GoFloat := .num 0
  pointHoverBorderColor : Option RGBA := none
  pointHoverBorderWidth : GoFloat := .num 0
  pointStyle : Shape := .empty
  showLine : GoBool := .unset
  spanGaps : GoBool := .unset
  xAxisID : String := ""
  yAxisID : String := ""
  xFloatFormat : Option GoFmt := none
  yFloatFormat : Option GoFmt := none

/-- The fields `json.Marshal(alias(d))` emits, in struct declaration
order with each tag's `omitempty` rule; the seven always-present float
fields are passed in already encoded (`Data`, `XFloatFormat` and
`YFloatFormat` are tagged `json:"-"` and never emitted). -/
def datasetFieldsCore (d : Dataset) (bw lt pbw pr phr phvr phbw : Json) :
    List (List Char × Json) :=
  jField "type" (if d.type.isZero then none
    else some (.str (chartTypeStr d.type).data))
  ++ jField "backgroundColor" (d.backgroundColor.map rgbaJson)
  ++ jField "borderColor" (d.borderColor.map rgbaJson)
  ++ jField "borderWidth" (some bw)
  ++ jField "label" (strOpt d.label)
  ++ jField "fill" (boolOpt d.fill)
  ++ jField "steppedLine" (boolOpt d.steppedLine)
  ++ jField "lineTension" (some lt)
  ++ jField "cubicInterpolationMode" (if d.cubicInterpolationMode = .unspecified
    then none else some (.str (interpModeStr d.cubicInterpolationMode).data))
  ++ jField "pointBackgroundColor" (d.pointBackgroundColor.map rgbaJson)
  ++ jField "pointBorderColor" (d.pointBorderColor.map rgbaJson)
  ++ jField "pointBorderWidth" (some pbw)
  ++ jField "pointRadius" (some pr)
  ++ jField "pointHitRadius" (some phr)
  ++ jField "pointHoverRadius" (some phvr)
  ++ jField "pointHoverBorderColor" (d.pointHoverBorderColor.map rgbaJson)
  ++ jField "pointHoverBorderWidth" (some phbw)
  ++ jField "pointStyle" (if d.pointStyle = .empty then none
    else some (.str (shapeStr d.pointStyle).data))
  ++ jField "showLine" (boolOpt d.showLine)
  ++ jField "spanGaps" (boolOpt d.spanGaps)
  ++ jField "xAxisID" (strOpt d.xAxisID)
  ++ jField "yAxisID" (strOpt d.yAxisID)

/-- The `json.Marshal(alias(d))` as a field list: fails on the first NaN
float field (in struct order), otherwise yields the fields. -/
def datasetFieldsE (d : Dataset) : Except String (List (List Char × Json)) := do
  let bw ← goNum d.borderWidth
  let lt ← goNum d.lineTension
  let pbw ← goNum d.pointBorderWidth
  let pr ← goNum d.pointRadius
  let phr ← goNum d.pointHitRadius
  let phvr ← goNum d.pointHoverRadius
  let phbw ← goNum d.pointHoverBorderWidth
  pure (datasetFieldsCore d bw lt pbw pr phr phvr phbw)

/-- The payload bytes of `Dataset.MarshalJSON` (source lines 222–231):
the `json.Marshaler` capability is tried first, the `Values` capability
second, and with neither the payload is absent (`none`, appending no
bytes). -/
def datasetPayloadBytes (gxf gyf : GoFmt) (d : Dataset) :
    Except String (Option (List Char)) :=
  let xf := d.xFloatFormat.getD gxf
  let yf := d.yFloatFormat.getD gyf
  match d.data.rawMarshal with
  | some m => Except.map some m
  | none =>
    match d.data.values with
    | some v => Except.map some (marshalValuesJSON v xf yf)
    | none => .ok none

/-- The byte splice of `Dataset.MarshalJSON` (source lines 238–245):
overwrite the final `'\x7d'` of the struct encoding with `','` (guarded
by non-emptiness), then append `"data":`, the payload bytes, and a
closing `'\x7d'`. -/
def spliceBytes (buf : List Char) (o : List Char) : List Char :=
  (if buf = [] then buf else buf.dropLast ++ [','])
    ++ ("\"data\":").data ++ o ++ ['\x7d']

/-- The `Dataset.MarshalJSON` (source lines 213–246). -/
def datasetMarshalJSON (gxf gyf : GoFmt) (d : Dataset) :
    Except String (List Char) := do
  let o ← datasetPayloadBytes gxf gyf d
  let fs ← datasetFieldsE d
  pure (spliceBytes (renderJson (.obj fs)) (o.getD []))

/-- The `AxisTitle` (plain Go `bool` display flag). -/
structure AxisTitle where
  display : Bool := false
  text : String := ""
deriving DecidableEq

/-- The `ScaleLabel`. -/
structure ScaleLabel where
  display : GoBool := .unset
  labelString : String := ""
  fontColor : Option RGBA := none
  fontFamily : String := ""
  fontSize : ℤ := 0
  fontStyle : String := ""
deriving DecidableEq

/-- The `Tick`. -/
structure Tick where
  min : GoFloat := .num 0
  max : GoFloat := .num 0
  beginAtZero : GoBool := .unset
deriving DecidableEq

/-- The `Axis` (the `ID` field is tagged `json:"-"`: it is the map key, not
a serialized field). -/
structure Axis where
  type : AxisType := .category
  position : AxisPosition := .unspecified
  label : String := ""
  id : String := ""
  gridLines : GoBool := .unset
  stacked : GoBool := .unset
  display : GoBool := .unset
  scaleLabel : Option ScaleLabel := none
  tick : Option Tick := none
  title : AxisTitle := {}
deriving DecidableEq

/-- The `Title` inside `Option`. -/
structure OptTitle where
  display : GoBool := .unset
  text : String := ""
deriving DecidableEq

/-- The `Animation`. -/
structure Animation where
  duration : ℤ := 0
deriving DecidableEq

/-- The `Legend`. -/
structure Legend where
  display : GoBool := .unset
deriving DecidableEq

/-- The `Tooltip` (`Custom` is a `template.JSStr`, i.e. a string). -/
structure Tooltip where
  enabled : GoBool := .unset
  intersect : GoBool := .unset
  mode : String := ""
  custom : String := ""
deriving DecidableEq

/-- The `Options`, with the embedded `Option` struct flattened the way Go
promotes its fields (`Responsive`, `MaintainAspectRatio`, `Title`
first).  The two Go maps are carried as association lists; their JSON
rendering sorts by key exactly as `encoding/json` does. -/
structure Options where
  responsive : GoBool := .unset
  maintainAspectRatio : GoBool := .unset
  title : Option OptTitle := none
  scales : List (String × Axis) := []
  legend : Option Legend := none
  tooltip : Option Tooltip := none
  animation : Animation := {}
  plugins : List (String × List (String × String)) := []
deriving DecidableEq

/-- The `Data`. -/
structure Data where
  datasets : List Dataset := []
  labels : List String := []

/-- The `Chart` (source lines 390–395). -/
structure Chart where
  type : ChartType := .line
  label : String := ""
  data : Data := {}
  options : Options := {}

/-- Go map update: overwrite the entry for `k` when present, otherwise
add one. -/
def mapInsert {α : Type} (m : List (String × α)) (k : String) (v : α) :
    List (String × α) :=
  if m.any (fun p => p.1 == k) then
    m.map (fun p => if p.1 == k then (k, v) else p)
  else m ++ [(k, v)]

/-- The `Chart.AddDataset`. -/
def Chart.addDataset (c : Chart) (d : Dataset) : Chart :=
  { c with data := { c.data with datasets := c.data.datasets ++ [d] } }

/-- The `Chart.AddAxis`: insert into `Options.Scales` keyed by `axis.ID`. -/
def Chart.addAxis (c : Chart) (a : Axis) : Chart :=
  { c with options :=
    { c.options with scales := mapInsert c.options.scales a.id a } }

/-- Error text of `AddXAxis` (the spec's `InvalidAxisPosition`). -/
def errXAxis : String := "chart: added x-axis to left or right"

/-- Error text of `AddYAxis` (the spec's `InvalidAxisPosition`). -/
def errYAxis : String := "chart: added y-axis to top or bottom"

/-- The `Chart.AddXAxis` (source lines 410–420): default the ID to `"x"`,
reject Left/Right positions, otherwise delegate to `AddAxis`.  The
returned chart is the receiver after the call (unchanged on failure). -/
def Chart.addXAxis (c : Chart) (x : Axis) : Except String String × Chart :=
  let x := if x.id = "" then { x with id := "x" } else x
  if x.position = .left ∨ x.position = .right then (.error errXAxis, c)
  else (.ok x.id, c.addAxis x)

/-- The `Chart.AddYAxis` (source lines 423–432). -/
def Chart.addYAxis (c : Chart) (y : Axis) : Except String String × Chart :=
  let y := if y.id = "" then { y with id := "y" } else y
  if y.position = .top ∨ y.position = .bottom then (.error errYAxis, c)
  else (.ok y.id, c.addAxis y)

/-- Insertion into a key-sorted association list. -/
def insertByKey {α : Type} (p : String × α) :
    List (String × α) → List (String × α)
  | [] => [p]
  | q :: rest => if p.1 ≤ q.1 then p :: q :: rest else q :: insertByKey p rest

/-- Sort an association list by key, as `encoding/json` sorts Go map
keys before emitting a map. -/
def sortByKey {α : Type} : List (String × α) → List (String × α)
  | [] => []
  | p :: rest => insertByKey p (sortByKey rest)

/-- The `AxisTitle` JSON (a plain `bool` under `omitempty` is omitted when
false). -/
def axisTitleJson (t : AxisTitle) : Json :=
  .obj (jField "display" (if t.display then some (.bool true) else none)
    ++ jField "text" (strOpt t.text))

/-- The `ScaleLabel` JSON. -/
def scaleLabelJson (s : ScaleLabel) : Json :=
  .obj (jField "display" (boolOpt s.display)
    ++ jField "labelString" (strOpt s.labelString)
    ++ jField "fontColor" (s.fontColor.map rgbaJson)
    ++ jField "fontFamily" (strOpt s.fontFamily)
    ++ jField "fontSize" (if s.fontSize = 0 then none else some (intJson s.fontSize))
    ++ jField "fontStyle" (strOpt s.fontStyle))

/-- The `Tick` JSON (`Min`/`Max` are floats under `omitempty`: omitted when
zero, rejected by `json.Marshal` when NaN). -/
def tickJson (t : Tick) : Except String Json := do
  let mn ← if t.min = GoFloat.num 0 then pure none else Except.map some (goNum t.min)
  let mx ← if t.max = GoFloat.num 0 then pure none else Except.map some (goNum t.max)
  pure (.obj (jField "min" mn ++ jField "max" mx
    ++ jField "beginAtZero" (boolOpt t.beginAtZero)))

/-- The `Axis` JSON: `type` always present, `title` a struct (never omitted
by `omitempty`), the rest per tag. -/
def axisJson (a : Axis) : Except String Json := do
  let tk ← match a.tick with
    | none => pure none
    | some t => Except.map some (tickJson t)
  pure (.obj ([(("type").data, Json.str (axisTypeStr a.type).data)]
    ++ jField "position" (if a.position = .unspecified then none
      else some (.str (axisPositionStr a.position).data))
    ++ jField "label" (strOpt a.label)
    ++ jField "gridLine" (boolOpt a.gridLines)
    ++ jField "stacked" (boolOpt a.stacked)
    ++ jField "display" (boolOpt a.display)
    ++ jField "scaleLabel" (a.scaleLabel.map scaleLabelJson)
    ++ jField "ticks" tk
    ++ [(("title").data, axisTitleJson a.title)]))

/-- The `Title` JSON. -/
def optTitleJson (t : OptTitle) : Json :=
  .obj (jField "display" (boolOpt t.display) ++ jField "text" (strOpt t.text))

/-- The `Legend` JSON. -/
def legendJson (l : Legend) : Json := .obj (jField "display" (boolOpt l.display))

/-- The `Tooltip` JSON. -/
def tooltipJson (t : Tooltip) : Json :=
  .obj (jField "enabled" (boolOpt t.enabled)
    ++ jField "intersect" (boolOpt t.intersect)
    ++ jField "mode" (strOpt t.mode)
    ++ jField "custom" (strOpt t.custom))

/-- The `Animation` JSON (`duration` carries no `omitempty`). -/
def animationJson (a : Animation) : Json :=
  .obj [(("duration").data, intJson a.duration)]

/-- The `Plugins` JSON: both map levels key-sorted. -/
def pluginsJson (p : List (String × List (String × String))) : Json :=
  .obj ((sortByKey p).map (fun q => (q.1.data,
    Json.obj ((sortByKey q.2).map (fun r => (r.1.data, Json.str r.2.data))))))

/-- The `Scales` JSON: key-sorted map of axes. -/
def scalesJson (scales : List (String × Axis)) : Except String Json := do
  let fs ← (sortByKey scales).mapM (fun p => do
    let j ← axisJson p.2
    pure (p.1.data, j))
  pure (.obj fs)

/-- The fields of `Options` in promoted declaration order; the two maps
are omitted when empty (`omitempty` on a map), `animation` is a struct
and always present. -/
def optionsFieldsE (o : Options) : Except String (List (List Char × Json)) := do
  let sc ← if o.scales.isEmpty then pure none
    else Except.map some (scalesJson o.scales)
  pure (jField "responsive" (boolOpt o.responsive)
    ++ jField "maintainAspectRatio" (boolOpt o.maintainAspectRatio)
    ++ jField "title" (o.title.map optTitleJson)
    ++ jField "scales" sc
    ++ jField "legend" (o.legend.map legendJson)
    ++ jField "tooltips" (o.tooltip.map tooltipJson)
    ++ [(("animation").data, animationJson o.animation)]
    ++ jField "plugins" (if o.plugins.isEmpty then none
      else some (pluginsJson o.plugins)))

/-- JSON object from fields whose values are pre-rendered bytes (used
where a member carries a custom marshaler). -/
def objBytes (fields : List (List Char × List Char)) : List Char :=
  ('\x7b' :: joinComma (fields.map
    (fun p => ('"' :: (escapeString p.1 ++ ['"', ':'])) ++ p.2))) ++ ['\x7d']

/-- The `json.Marshal` of a whole `Chart`: `type` (no `omitempty`), optional
`label`, then the `data` and `options` structs (a struct field under
`omitempty` is still always emitted).  Two deliberate simplifications
that affect no verified claim: a nil Go slice would render as `null`
where this model always renders a (possibly empty) array, and Go
re-compacts the bytes a nested custom marshaler returns (dropping the
two spaces `marshalValuesJSON` can leave around a null), a deterministic
rewrite not modelled here. -/
def chartMarshalJSON (gxf gyf : GoFmt) (c : Chart) : Except String (List Char) := do
  let ds ← c.data.datasets.mapM (datasetMarshalJSON gxf gyf)
  let ofs ← optionsFieldsE c.options
  let dataBytes := objBytes
    [(("datasets").data, ('[' :: joinComma ds) ++ [']']),
     (("labels").data, renderJson (.arr (c.data.labels.map (fun s => .str s.data))))]
  pure (objBytes ([(("type").data, renderJson (.str (chartTypeStr c.type).data))]
    ++ (if c.label = "" then [] else [(("label").data, renderJson (.str c.label.data))])
    ++ [(("data").data, dataBytes), (("options").data, renderJson (.obj ofs))]))

/-- The JSON tree of one x/y point as the series encoder emits it under
the default `%.2f` formats; the NaN branch is `null` wrapped in the
source's single spaces (grammatical `element` whitespace). -/
def xyPointJson (x y : GoFloat) : Json :=
  if y.isNaN then
    .obj [(("x").data, .num (fmtF2 x)), (("y").data, .pad [' '] .null [' '])]
  else
    .obj [(("x").data, .num (fmtF2 x)), (("y").data, .num (fmtF2 y))]

/-- The JSON tree of one bubble point under the default formats (the
NaN branch pads `null` on the left only, as the source does). -/
def bubblePointJson (x y r : GoFloat) : Json :=
  if y.isNaN then
    .obj [(("x").data, .num (fmtF2 x)), (("y").data, .pad [' '] .null []),
      (("r").data, .num (fmtF2 r))]
  else
    .obj [(("x").data, .num (fmtF2 x)), (("y").data, .num (fmtF2 y)),
      (("r").data, .num (fmtF2 r))]

/-- Trees of all x/y points of a series. -/
def xyTrees : List GoFloat → List GoFloat → List Json
  | x :: xs, y :: ys => xyPointJson x y :: xyTrees xs ys
  | _, _ => []

/-- Trees of all bubble points of a series. -/
def bubbleTrees : List GoFloat → List GoFloat → List GoFloat → List Json
  | x :: xs, y :: ys, r :: rs => bubblePointJson x y r :: bubbleTrees xs ys rs
  | _, _, _ => []

/-- Trees of a bare-number series. -/
def bareTrees : List GoFloat → List Json
  | [] => []
  | x :: xs => .num (fmtF2 x) :: bareTrees xs

/-- When `Xs()` is empty and `Rs()` is empty, the encoder substitutes the
Y sequence for X and clears Y, so it emits the Y values as bare numbers
under the X format. -/
theorem marshalValues_noX (ys : List GoFloat) (xf yf : GoFmt) :
    marshalValuesJSON ⟨[], ys, []⟩ xf yf
      = .ok (('[' :: joinComma (ys.map xf)) ++ [']']) := by
  simp [marshalValuesJSON, marshalValuesBody]

/-- With Y and R empty the encoder emits the X values as bare numbers
under the X format (for any X, including empty). -/
theorem marshalValues_bareX (xs : List GoFloat) (xf yf : GoFmt) :
    marshalValuesJSON ⟨xs, [], []⟩ xf yf
      = .ok (('[' :: joinComma (xs.map xf)) ++ [']']) := by
  cases xs with
  | nil => simp [marshalValuesJSON, marshalValuesBody]
  | cons x xs => simp [marshalValuesJSON, marshalValuesBody]

/-- Empty X with non-empty R is rejected with the invalid-shape error. -/
theorem marshalValues_invalidShape (v : ValuesData) (xf yf : GoFmt)
    (hx : v.xs = []) (hr : v.rs ≠ []) :
    marshalValuesJSON v xf yf = .error badValuesData := by
  have hr0 : v.rs.length ≠ 0 := by simpa [List.length_eq_zero] using hr
  simp [marshalValuesJSON, hx, hr0]

/-- Non-empty X and non-empty R with any length disagreement across
X/Y/R is rejected with the all-axes shape-mismatch error. -/
theorem marshalValues_bubbleMismatch (v : ValuesData) (xf yf : GoFmt)
    (hx : v.xs ≠ []) (hr : v.rs ≠ [])
    (hlen : ¬(v.xs.length = v.ys.length ∧ v.xs.length = v.rs.length)) :
    marshalValuesJSON v xf yf = .error badValuesAllAxes := by
  have hx0 : v.xs.length ≠ 0 := by simpa [List.length_eq_zero] using hx
  have hr0 : 0 < v.rs.length := by
    simpa [List.length_pos] using hr
  have hne : v.xs.length ≠ v.ys.length ∨ v.xs.length ≠ v.rs.length := by
    by_contra hcon
    push_neg at hcon
    exact hlen ⟨hcon.1, hcon.2⟩
  simp [marshalValuesJSON, hx0, marshalValuesBody, hr0, hne]

/-- Non-empty X, empty R, non-empty Y with an X/Y length disagreement is
rejected with the X/Y shape-mismatch error. -/
theorem marshalValues_xyMismatch (v : ValuesData) (xf yf : GoFmt)
    (hx : v.xs ≠ []) (hr : v.rs = []) (hy : v.ys ≠ [])
    (hlen : v.xs.length ≠ v.ys.length) :
    marshalValuesJSON v xf yf = .error badValuesXY := by
  have hx0 : v.xs.length ≠ 0 := by simpa [List.length_eq_zero] using hx
  have hy0 : 0 < v.ys.length := by simpa [List.length_pos] using hy
  simp [marshalValuesJSON, hx0, marshalValuesBody, hr, hy0, hlen]

/-- Outside the three rejection conditions the encoder always returns a
result. -/
theorem marshalValues_ok_of_wellShaped (v : ValuesData) (xf yf : GoFmt)
    (h1 : ¬(v.xs = [] ∧ v.rs ≠ []))
    (h2 : ¬(v.xs ≠ [] ∧ v.rs ≠ []
        ∧ ¬(v.xs.length = v.ys.length ∧ v.xs.length = v.rs.length)))
    (h3 : ¬(v.xs ≠ [] ∧ v.rs = [] ∧ v.ys ≠ [] ∧ v.xs.length ≠ v.ys.length)) :
    ∃ b, marshalValuesJSON v xf yf = .ok b := by
  by_cases hx : v.xs = []
  · have hr : v.rs = [] := by
      by_contra hrne
      exact h1 ⟨hx, hrne⟩
    have hv : v = ⟨[], v.ys, []⟩ := by
      cases v with
      | mk a b c => simp_all
    rw [hv]
    exact ⟨_, marshalValues_noX v.ys xf yf⟩
  · have hx0 : v.xs.length ≠ 0 := by simpa [List.length_eq_zero] using hx
    by_cases hr : v.rs = []
    · by_cases hy : v.ys = []
      · refine ⟨('[' :: joinComma (v.xs.map xf)) ++ [']'], ?_⟩
        simp [marshalValuesJSON, hx0, marshalValuesBody, hr, hy]
      · have hy0 : 0 < v.ys.length := by simpa [List.length_pos] using hy
        have hlen : v.xs.length = v.ys.length := by
          by_contra hne
          exact h3 ⟨hx, hr, hy, hne⟩
        refine ⟨('[' :: joinComma (xyPoints xf yf v.xs v.ys)) ++ [']'], ?_⟩
        simp [marshalValuesJSON, hx0, marshalValuesBody, hr, hy, hy0, hlen]
    · have hlen : v.xs.length = v.ys.length ∧ v.xs.length = v.rs.length := by
        by_contra hne
        exact h2 ⟨hx, hr, hne⟩
      have hr0 : 0 < v.rs.length := by simpa [List.length_pos] using hr
      have hcond : ¬(v.xs.length ≠ v.ys.length ∨ v.xs.length ≠ v.rs.length) := by
        push_neg
        exact hlen
      refine ⟨('[' :: joinComma (bubblePoints xf yf v.xs v.ys v.rs)) ++ [']'], ?_⟩
      simp only [marshalValuesJSON, marshalValuesBody, hx0, hr0, hcond, if_false,
        if_true]

/-- C1, counterexample: on X=[1,2], Y=[3,NaN], R=[] with the default
`%.2f` formats, the encoder does NOT return the claimed bytes
`[\x7b"x":1.00,"y":3.00\x7d,\x7b"x":2.00,"y": null\x7d]` — the source's
NaN branch writes `"y": null ` with a trailing space before the closing
brace. -/
theorem values_nan_bytes_claim_refuted :
    marshalValuesJSON ⟨[.num 1, .num 2], [.num 3, .nan], []⟩ fmtF2 fmtF2
      ≠ .ok ("[\x7b\"x\":1.00,\"y\":3.00\x7d,\x7b\"x\":2.00,\"y\": null\x7d]").data := by
  decide

/-- C1, amended: on X=[1,2], Y=[3,NaN], R=[] with the default `%.2f`
formats, the encoder returns exactly the bytes
`[\x7b"x":1.00,"y":3.00\x7d,\x7b"x":2.00,"y": null \x7d]` (a space
before the closing brace of the null point), with null exactly where Y
is NaN. -/
theorem values_nan_bytes_amended :
    marshalValuesJSON ⟨[.num 1, .num 2], [.num 3, .nan], []⟩ fmtF2 fmtF2
      = .ok ("[\x7b\"x\":1.00,\"y\":3.00\x7d,\x7b\"x\":2.00,\"y\": null \x7d]").data := by
  decide

/-- C2, counterexample: the payload X=[], Y=[3], R=[] satisfies the
claim's second failure condition (R empty, Y non-empty, X/Y lengths
disagree), yet the encoder succeeds — the empty-X substitution turns Y
into the plotted values instead of mismatching. -/
theorem values_error_conditions_claim_refuted :
    ((ValuesData.mk [] [.num 3] []).rs = []
      ∧ (ValuesData.mk [] [.num 3] []).ys ≠ []
      ∧ (ValuesData.mk [] [.num 3] []).xs.length
          ≠ (ValuesData.mk [] [.num 3] []).ys.length)
    ∧ marshalValuesJSON ⟨[], [.num 3], []⟩ fmtF2 fmtF2 = .ok ("[3.00]").data := by
  decide

/-- C2, amended: the encoder fails exactly on the three conditions with
X non-emptiness added to the two mismatch conditions (when X and R are
both empty the Y sequence is substituted for X and no length check
applies): `InvalidShape` when X is empty and R non-empty; all-axes
`ShapeMismatch` when X and R are non-empty and the X/Y/R lengths
disagree; X/Y `ShapeMismatch` when X is non-empty, R empty, Y non-empty
and the X/Y lengths disagree; outside these it returns a result. -/
theorem values_error_characterization (v : ValuesData) (xf yf : GoFmt) :
    ((v.xs = [] ∧ v.rs ≠ []) → marshalValuesJSON v xf yf = .error badValuesData)
    ∧ ((v.xs ≠ [] ∧ v.rs ≠ []
        ∧ ¬(v.xs.length = v.ys.length ∧ v.xs.length = v.rs.length)) →
      marshalValuesJSON v xf yf = .error badValuesAllAxes)
    ∧ ((v.xs ≠ [] ∧ v.rs = [] ∧ v.ys ≠ [] ∧ v.xs.length ≠ v.ys.length) →
      marshalValuesJSON v xf yf = .error badValuesXY)
    ∧ ((¬(v.xs = [] ∧ v.rs ≠ [])
        ∧ ¬(v.xs ≠ [] ∧ v.rs ≠ []
          ∧ ¬(v.xs.length = v.ys.length ∧ v.xs.length = v.rs.length))
        ∧ ¬(v.xs ≠ [] ∧ v.rs = [] ∧ v.ys ≠ [] ∧ v.xs.length ≠ v.ys.length)) →
      ∃ b, marshalValuesJSON v xf yf = .ok b) := by
  refine ⟨fun h => marshalValues_invalidShape v xf yf h.1 h.2,
    fun h => marshalValues_bubbleMismatch v xf yf h.1 h.2.1 h.2.2,
    fun h => marshalValues_xyMismatch v xf yf h.1 h.2.1 h.2.2.1 h.2.2.2,
    fun h => marshalValues_ok_of_wellShaped v xf yf h.1 h.2.1 h.2.2⟩

/-- Witness for C2's amended characterization at X=[], Y=[], R=[1]:
the encoder fails with the invalid-shape error, as the spec's test
property demands. -/
theorem values_error_characterization_witness :
    marshalValuesJSON ⟨[], [], [.num 1]⟩ fmtF2 fmtF2 = .error badValuesData :=
  (values_error_characterization ⟨[], [], [.num 1]⟩ fmtF2 fmtF2).1
    ⟨rfl, by decide⟩

/-- C6: for non-empty X with empty Y and R the encoder returns the JSON
array of the X values as bare numbers under the X format, one element
per X value. -/
theorem values_bare_numbers (xs : List GoFloat) (xf yf : GoFmt) (_hx : xs ≠ []) :
    marshalValuesJSON ⟨xs, [], []⟩ xf yf
      = .ok (('[' :: joinComma (xs.map xf)) ++ [']'])
    ∧ (xs.map xf).length = xs.length :=
  ⟨marshalValues_bareX xs xf yf, by simp⟩

/-- Witness for C6 at X=[1] with the default formats. -/
theorem values_bare_numbers_witness :
    marshalValuesJSON ⟨[GoFloat.num 1], [], []⟩ fmtF2 fmtF2
      = .ok (('[' :: joinComma ([GoFloat.num 1].map fmtF2)) ++ [']'])
    ∧ ([GoFloat.num 1].map fmtF2).length = [GoFloat.num 1].length :=
  values_bare_numbers [GoFloat.num 1] fmtF2 fmtF2 (by decide)

/-- C7: with X and R empty the Y sequence is treated as the plotted
values — emitted as bare numbers in a JSON array (so no `"y"` key
shape), and the encoder never fails. -/
theorem values_y_substitution (ys : List GoFloat) (xf yf : GoFmt) :
    marshalValuesJSON ⟨[], ys, []⟩ xf yf
      = .ok (('[' :: joinComma (ys.map xf)) ++ [']']) :=
  marshalValues_noX ys xf yf

/-- C9: when X and R are empty the substituted Y values are formatted
with the X format string — the Y format has no effect on the output. -/
theorem values_substitution_uses_x_format (ys : List GoFloat) (xf yf yf2 : GoFmt) :
    marshalValuesJSON ⟨[], ys, []⟩ xf yf = marshalValuesJSON ⟨[], ys, []⟩ xf yf2
    ∧ marshalValuesJSON ⟨[], ys, []⟩ xf yf
        = .ok (('[' :: joinComma (ys.map xf)) ++ [']']) := by
  refine ⟨?_, marshalValues_noX ys xf yf⟩
  rw [marshalValues_noX, marshalValues_noX]

/-- C10: with X, Y and R all empty the encoder succeeds and returns the
two-byte empty JSON array. -/
theorem values_all_empty_encodes_empty_array (xf yf : GoFmt) :
    marshalValuesJSON ⟨[], [], []⟩ xf yf = .ok ("[]").data := rfl

/-- Running `Dataset.MarshalJSON` once the payload and struct encodings
are known. -/
theorem datasetMarshal_eq (gxf gyf : GoFmt) (d : Dataset)
    (o : Option (List Char)) (fs : List (List Char × Json))
    (hp : datasetPayloadBytes gxf gyf d = .ok o)
    (hf : datasetFieldsE d = .ok fs) :
    datasetMarshalJSON gxf gyf d
      = .ok (spliceBytes (renderJson (.obj fs)) (o.getD [])) := by
  simp [datasetMarshalJSON, hp, hf, Bind.bind, Except.bind, pure, Except.pure]

/-- C3: `AddXAxis` with a Left/Right position and `AddYAxis` with a
Top/Bottom position fail with the invalid-axis-position error and
return the chart unchanged (no axis mapping mutation). -/
theorem addXAxis_addYAxis_position_guard (c : Chart) (x y : Axis) :
    ((x.position = .left ∨ x.position = .right) →
      c.addXAxis x = (.error errXAxis, c))
    ∧ ((y.position = .top ∨ y.position = .bottom) →
      c.addYAxis y = (.error errYAxis, c)) := by
  constructor
  · intro h
    have h2 : (if x.id = "" then { x with id := "x" } else x).position = .left
        ∨ (if x.id = "" then { x with id := "x" } else x).position = .right := by
      by_cases hid : x.id = "" <;> simpa [hid] using h
    simp only [Chart.addXAxis]
    rw [if_pos h2]
  · intro h
    have h2 : (if y.id = "" then { y with id := "y" } else y).position = .top
        ∨ (if y.id = "" then { y with id := "y" } else y).position = .bottom := by
      by_cases hid : y.id = "" <;> simpa [hid] using h
    simp only [Chart.addYAxis]
    rw [if_pos h2]

/-- Witness for C3 at a fresh chart: an x-axis at Left and a y-axis at
Bottom are both rejected and the chart is returned unmodified. -/
theorem addXAxis_addYAxis_position_guard_witness :
    (Chart.mk .line "" {} {}).addXAxis { position := .left }
      = (.error errXAxis, Chart.mk .line "" {} {})
    ∧ (Chart.mk .line "" {} {}).addYAxis { position := .bottom }
      = (.error errYAxis, Chart.mk .line "" {} {}) :=
  ⟨(addXAxis_addYAxis_position_guard (Chart.mk .line "" {} {})
      { position := .left } { position := .bottom }).1 (Or.inl rfl),
   (addXAxis_addYAxis_position_guard (Chart.mk .line "" {} {})
      { position := .left } { position := .bottom }).2 (Or.inr rfl)⟩

/-- C5: the dataset encoder dispatches on the payload's capabilities in
a fixed priority order — the raw `json.Marshaler` capability first
(regardless of a `Values` capability), the `Values` capability second,
and with neither capability it encodes the dataset with an absent data
payload (no bytes after `"data":`). -/
theorem dataset_capability_priority (gxf gyf : GoFmt) (d : Dataset) :
    (∀ b, d.data.rawMarshal = some (.ok b) →
      ∀ fs, datasetFieldsE d = .ok fs →
        datasetMarshalJSON gxf gyf d
          = .ok (spliceBytes (renderJson (.obj fs)) b))
    ∧ (∀ v b, d.data.rawMarshal = none → d.data.values = some v →
      marshalValuesJSON v (d.xFloatFormat.getD gxf) (d.yFloatFormat.getD gyf)
          = .ok b →
      ∀ fs, datasetFieldsE d = .ok fs →
        datasetMarshalJSON gxf gyf d
          = .ok (spliceBytes (renderJson (.obj fs)) b))
    ∧ (d.data.rawMarshal = none → d.data.values = none →
      datasetPayloadBytes gxf gyf d = .ok none
      ∧ ∀ fs, datasetFieldsE d = .ok fs →
        datasetMarshalJSON gxf gyf d
          = .ok (spliceBytes (renderJson (.obj fs)) [])) := by
  refine ⟨?_, ?_, ?_⟩
  · intro b hraw fs hfs
    have hp : datasetPayloadBytes gxf gyf d = .ok (some b) := by
      simp [datasetPayloadBytes, hraw, Except.map]
    exact datasetMarshal_eq gxf gyf d (some b) fs hp hfs
  · intro v b hraw hval hm fs hfs
    have hp : datasetPayloadBytes gxf gyf d = .ok (some b) := by
      simp [datasetPayloadBytes, hraw, hval, hm, Except.map]
    exact datasetMarshal_eq gxf gyf d (some b) fs hp hfs
  · intro hraw hval
    have hp : datasetPayloadBytes gxf gyf d = .ok none := by
      simp [datasetPayloadBytes, hraw, hval]
    exact ⟨hp, fun fs hfs => datasetMarshal_eq gxf gyf d none fs hp hfs⟩

/-- Witness for C5 at the zero dataset (no capability): the encoder
splices an absent payload. -/
theorem dataset_capability_priority_witness :
    datasetMarshalJSON fmtF2 fmtF2 {}
      = .ok (spliceBytes (renderJson (.obj (datasetFieldsCore {}
          (.num ("0").data) (.num ("0").data) (.num ("0").data)
          (.num ("0").data) (.num ("0").data) (.num ("0").data)
          (.num ("0").data)))) []) :=
  ((dataset_capability_priority fmtF2 fmtF2 {}).2.2 rfl rfl).2 _ rfl

/-- C8: chart encoding is deterministic — with the process-wide format
defaults fixed, encoding the same unmodified chart twice yields
byte-identical output.  In this embedding every encoder (including the
map serializations, which sort keys exactly as `encoding/json` does
instead of exposing Go's randomized map iteration order) is a pure
function of the chart value and the two format defaults, so the two
results coincide definitionally. -/
theorem chart_marshal_deterministic (gxf gyf : GoFmt) (c : Chart) :
    chartMarshalJSON gxf gyf c = chartMarshalJSON gxf gyf c := rfl

/-- Digit characters are digits. -/
theorem isDigit_digitChar : ∀ k < 10, isDigitCh (digitChar k) = true := by decide

/-- Nonzero digit characters differ from `'0'`. -/
theorem digitChar_ne_zero : ∀ k < 10, 1 ≤ k → digitChar k ≠ '0' := by decide

/-- A digit character is not `'-'`. -/
theorem ne_dash_of_digit {c : Char} (h : isDigitCh c = true) : c ≠ '-' := by
  intro he
  subst he
  exact absurd h (by decide)

/-- A digit character is not `'.'`. -/
theorem ne_dot_of_digit {c : Char} (h : isDigitCh c = true) : c ≠ '.' := by
  intro he
  subst he
  exact absurd h (by decide)

/-- Dropping a digit run: an all-satisfying prefix is consumed. -/
theorem dropWhile_append_of_all (p : Char → Bool) (l t : List Char)
    (h : ∀ c ∈ l, p c = true) :
    List.dropWhile p (l ++ t) = List.dropWhile p t := by
  induction l with
  | nil => rfl
  | cons c l ih =>
    simp [List.dropWhile, h c (by simp)]
    exact ih fun x hx => h x (by simp [hx])

/-- The `natDigitsAux` with adequate fuel is nonempty, all digits, and never
zero-leading for a positive argument. -/
theorem natDigitsAux_props : ∀ fuel n, n < fuel →
    natDigitsAux fuel n ≠ []
    ∧ (∀ c ∈ natDigitsAux fuel n, isDigitCh c = true)
    ∧ (1 ≤ n → (natDigitsAux fuel n).head? ≠ some '0') := by
  intro fuel
  induction fuel with
  | zero => omega
  | succ fuel ih =>
    intro n hn
    by_cases h10 : n < 10
    · refine ⟨by simp [natDigitsAux, h10], ?_, ?_⟩
      · intro c hc
        simp [natDigitsAux, h10] at hc
        subst hc
        exact isDigit_digitChar n h10
      · intro h1
        simp [natDigitsAux, h10]
        exact digitChar_ne_zero n h10 h1
    · have hfuel : n / 10 < fuel := by
        have h1 : n / 10 < n := Nat.div_lt_self (by omega) (by omega)
        omega
      obtain ⟨hne, hdig, hhd⟩ := ih (n / 10) hfuel
      refine ⟨by simp [natDigitsAux, h10, hne], ?_, ?_⟩
      · intro c hc
        simp only [natDigitsAux, if_neg h10, List.mem_append, List.mem_singleton] at hc
        rcases hc with hc | hc
        · exact hdig c hc
        · subst hc
          exact isDigit_digitChar (n % 10) (Nat.mod_lt _ (by omega))
      · intro _
        simp only [natDigitsAux, if_neg h10]
        rw [List.head?_append_of_ne_nil _ hne]
        exact hhd ((Nat.one_le_div_iff (by omega)).2 (by omega))

/-- The `natDigits` is nonempty, all digits, and never zero-leading for a
positive argument. -/
theorem natDigits_props (n : Nat) :
    natDigits n ≠ []
    ∧ (∀ c ∈ natDigits n, isDigitCh c = true)
    ∧ (1 ≤ n → (natDigits n).head? ≠ some '0') :=
  natDigitsAux_props (n + 1) n (Nat.lt_succ_self n)

/-- Every character `fracDigits` emits for a proper fraction is a
digit. -/
theorem fracDigits_all_digits : ∀ fuel a b, 0 < b → a < b →
    ∀ c ∈ fracDigits fuel a b, isDigitCh c = true := by
  intro fuel
  induction fuel with
  | zero => intro a b _ _ c hc; simp [fracDigits] at hc
  | succ fuel ih =>
    intro a b hb hab c hc
    by_cases ha : a = 0
    · simp [fracDigits, ha] at hc
    · simp only [fracDigits, if_neg ha, List.mem_cons] at hc
      rcases hc with hc | hc
      · subst hc
        exact isDigit_digitChar _ ((Nat.div_lt_iff_lt_mul hb).2 (by omega))
      · exact ih (10 * a % b) b hb (Nat.mod_lt _ hb) c hc

/-- The unsigned number grammar accepts `encodeFrac`. -/
theorem unsignedOk_encodeFrac (a b : Nat) (hb : 0 < b) :
    unsignedOk (encodeFrac a b) = true := by
  have hfrac : fracOk (if fracDigits 1100 (a % b) b = [] then []
      else '.' :: fracDigits 1100 (a % b) b) = true := by
    by_cases hds : fracDigits 1100 (a % b) b = []
    · simp [hds, fracOk]
    · simp only [if_neg hds, fracOk]
      refine by simp [hds, List.all_eq_true]; exact
        fun c hc => fracDigits_all_digits 1100 (a % b) b hb (Nat.mod_lt _ hb) c hc
  obtain ⟨hne, hdig, hhd⟩ := natDigits_props (a / b)
  by_cases hi : a / b = 0
  · have h0 : natDigits (a / b) = ['0'] := by rw [hi]; rfl
    simp only [encodeFrac, h0]
    simpa [unsignedOk] using hfrac
  · obtain ⟨c, cs, hcs⟩ : ∃ c cs, natDigits (a / b) = c :: cs := by
      cases h : natDigits (a / b) with
      | nil => exact absurd h hne
      | cons c cs => exact ⟨c, cs, rfl⟩
    have hcdig : isDigitCh c = true := hdig c (by simp [hcs])
    have hcne : c ≠ '0' := by
      intro he
      exact hhd (Nat.pos_of_ne_zero hi) (by simp [hcs, he])
    have hcsdig : ∀ x ∈ cs, isDigitCh x = true := fun x hx => hdig x (by simp [hcs, hx])
    simp only [encodeFrac, hcs, List.cons_append, unsignedOk, if_neg hcne, hcdig,
      Bool.true_and]
    rw [dropWhile_append_of_all _ cs _ hcsdig]
    by_cases hds : fracDigits 1100 (a % b) b = []
    · simpa [hds] using hfrac
    · simp only [if_neg hds] at hfrac ⊢
      simpa [List.dropWhile] using hfrac

/-- Every number token `encodeRat` produces matches the JSON number
grammar. -/
theorem numToken_encodeRat (q : ℚ) : numToken (encodeRat q) = true := by
  unfold encodeRat
  split
  · simpa [numToken] using unsignedOk_encodeFrac q.num.natAbs q.den q.den_pos
  · have hok := unsignedOk_encodeFrac q.num.toNat q.den q.den_pos
    obtain ⟨hne, hdig, _⟩ := natDigits_props (q.num.toNat / q.den)
    obtain ⟨c, cs, hcs⟩ : ∃ c cs, natDigits (q.num.toNat / q.den) = c :: cs := by
      cases h : natDigits (q.num.toNat / q.den) with
      | nil => exact absurd h hne
      | cons c cs => exact ⟨c, cs, rfl⟩
    have hcdig : isDigitCh c = true := hdig c (by simp [hcs])
    have hshape : encodeFrac q.num.toNat q.den
        = c :: (cs ++ (if fracDigits 1100 (q.num.toNat % q.den) q.den = [] then []
          else '.' :: fracDigits 1100 (q.num.toNat % q.den) q.den)) := by
      simp [encodeFrac, hcs]
    rw [hshape]
    rw [hshape] at hok
    simpa [numToken, if_neg (ne_dash_of_digit hcdig)] using hok

/-- The forced two-decimal pair is a nonempty digit run. -/
theorem pad2_digits (m : Nat) :
    pad2 m ≠ [] ∧ ∀ c ∈ pad2 m, isDigitCh c = true := by
  obtain ⟨hne, hdig, -⟩ := natDigits_props m
  unfold pad2
  split
  · refine ⟨by simp, ?_⟩
    intro c hc
    rcases List.mem_cons.1 hc with hc | hc
    · subst hc
      decide
    · exact hdig c hc
  · exact ⟨hne, hdig⟩

/-- The unsigned number grammar accepts the `"%.2f"` rendering of a
nonnegative fraction. -/
theorem unsignedOk_fmtF2frac (a b : Nat) : unsignedOk (fmtF2frac a b) = true := by
  obtain ⟨hne2, hdig2⟩ := pad2_digits (round2 a b % 100)
  have hfrac : fracOk ('.' :: pad2 (round2 a b % 100)) = true := by
    have h1 : (pad2 (round2 a b % 100)).isEmpty = false := by
      simpa [List.isEmpty_iff] using hne2
    simp [fracOk, h1, List.all_eq_true]
    exact hdig2
  obtain ⟨hne, hdig, hhd⟩ := natDigits_props (round2 a b / 100)
  by_cases hi : round2 a b / 100 = 0
  · have h0 : natDigits (round2 a b / 100) = ['0'] := by rw [hi]; rfl
    simp only [fmtF2frac, h0]
    simpa [unsignedOk] using hfrac
  · obtain ⟨c, cs, hcs⟩ : ∃ c cs, natDigits (round2 a b / 100) = c :: cs := by
      cases h : natDigits (round2 a b / 100) with
      | nil => exact absurd h hne
      | cons c cs => exact ⟨c, cs, rfl⟩
    have hcdig : isDigitCh c = true := hdig c (by simp [hcs])
    have hcne : c ≠ '0' := by
      intro he
      exact hhd (Nat.pos_of_ne_zero hi) (by simp [hcs, he])
    simp only [fmtF2frac, hcs, List.cons_append, unsignedOk, if_neg hcne, hcdig,
      Bool.true_and]
    rw [dropWhile_append_of_all _ cs _ (fun x hx => hdig x (by simp [hcs, hx]))]
    simpa [List.dropWhile] using hfrac

/-- Every number token the default `"%.2f"` format produces for a
finite value matches the JSON number grammar. -/
theorem numToken_fmtF2 (q : ℚ) : numToken (fmtF2 (.num q)) = true := by
  simp only [fmtF2]
  split
  · simpa [numToken] using unsignedOk_fmtF2frac q.num.natAbs q.den
  · have hok := unsignedOk_fmtF2frac q.num.toNat q.den
    obtain ⟨hne, hdig, -⟩ := natDigits_props (round2 q.num.toNat q.den / 100)
    obtain ⟨c, cs, hcs⟩ : ∃ c cs,
        natDigits (round2 q.num.toNat q.den / 100) = c :: cs := by
      cases h : natDigits (round2 q.num.toNat q.den / 100) with
      | nil => exact absurd h hne
      | cons c cs => exact ⟨c, cs, rfl⟩
    have hcdig : isDigitCh c = true := hdig c (by simp [hcs])
    have hshape : fmtF2frac q.num.toNat q.den
        = c :: (cs ++ '.' :: pad2 (round2 q.num.toNat q.den % 100)) := by
      simp [fmtF2frac, hcs]
    rw [hshape] at hok ⊢
    simpa [numToken, if_neg (ne_dash_of_digit hcdig)] using hok

/-- The `"%.2f"` rendering of any finite value is a grammatical number
token. -/
theorem numToken_fmtF2_finite (x : GoFloat) (hx : x.isNaN = false) :
    numToken (fmtF2 x) = true := by
  cases x with
  | nan => simp [GoFloat.isNaN] at hx
  | num q => exact numToken_fmtF2 q

/-- Comma-joining after appending one more fragment. -/
theorem joinComma_append_single (l : List (List Char)) (x : List Char) (hl : l ≠ []) :
    joinComma (l ++ [x]) = joinComma l ++ ',' :: x := by
  induction l with
  | nil => exact absurd rfl hl
  | cons a l ih =>
    cases l with
    | nil => simp [joinComma]
    | cons b l2 =>
      have hih := ih (by simp)
      simp only [List.cons_append, joinComma] at hih ⊢
      simp [hih]

/-- Fields render homomorphically over append. -/
theorem renderFields_append (a b : List (List Char × Json)) :
    renderFields (a ++ b) = renderFields a ++ renderFields b := by
  induction a with
  | nil => rfl
  | cons p a ih => simp [renderFields, ih]

/-- Nonempty field lists render to nonempty fragment lists. -/
theorem renderFields_ne_nil {fs : List (List Char × Json)} (h : fs ≠ []) :
    renderFields fs ≠ [] := by
  cases fs with
  | nil => exact absurd rfl h
  | cons p fs => simp [renderFields]

/-- The rendered `"data"` field is the literal key text followed by the
value. -/
theorem renderField_data (v : Json) :
    renderField (("data").data, v) = ("\"data\":").data ++ renderJson v := by
  have hesc : escapeString ("data").data = ("data").data := by decide
  have hkey : ('"' :: (escapeString ("data").data ++ ['"', ':'])) = ("\"data\":").data := by
    rw [hesc]
    decide
  simp only [renderField]
  rw [hkey]

/-- The byte splice of `Dataset.MarshalJSON` applied to a rendered
object and a rendered payload is exactly the rendering of the object
with a final `"data"` field adjoined. -/
theorem splice_eq_renderObj (fs : List (List Char × Json)) (v : Json) (hfs : fs ≠ []) :
    spliceBytes (renderJson (.obj fs)) (renderJson v)
      = renderJson (.obj (fs ++ [(("data").data, v)])) := by
  have hobj : renderJson (.obj fs)
      = ('\x7b' :: joinComma (renderFields fs)) ++ ['\x7d'] := rfl
  have hobj2 : renderJson (.obj (fs ++ [(("data").data, v)]))
      = ('\x7b' :: joinComma (renderFields fs
          ++ [renderField (("data").data, v)])) ++ ['\x7d'] := by
    simp [renderJson, renderFields_append, renderFields]
  rw [hobj2, joinComma_append_single _ _ (renderFields_ne_nil hfs), renderField_data]
  unfold spliceBytes
  rw [hobj]
  rw [if_neg (by simp)]
  rw [List.dropLast_concat]
  simp

/-- Inversion of the struct-field encoding: success names the seven
float fields' rationals and fixes the field list. -/
theorem datasetFieldsE_ok (d : Dataset) (fs : List (List Char × Json))
    (h : datasetFieldsE d = .ok fs) :
    ∃ q1 q2 q3 q4 q5 q6 q7 : ℚ,
      fs = datasetFieldsCore d (.num (encodeRat q1)) (.num (encodeRat q2))
        (.num (encodeRat q3)) (.num (encodeRat q4)) (.num (encodeRat q5))
        (.num (encodeRat q6)) (.num (encodeRat q7)) := by
  cases h1 : d.borderWidth with
  | nan => simp [datasetFieldsE, goNum, h1, Bind.bind, Except.bind] at h
  | num q1 =>
  cases h2 : d.lineTension with
  | nan => simp [datasetFieldsE, goNum, h1, h2, Bind.bind, Except.bind] at h
  | num q2 =>
  cases h3 : d.pointBorderWidth with
  | nan => simp [datasetFieldsE, goNum, h1, h2, h3, Bind.bind, Except.bind] at h
  | num q3 =>
  cases h4 : d.pointRadius with
  | nan => simp [datasetFieldsE, goNum, h1, h2, h3, h4, Bind.bind, Except.bind] at h
  | num q4 =>
  cases h5 : d.pointHitRadius with
  | nan => simp [datasetFieldsE, goNum, h1, h2, h3, h4, h5, Bind.bind, Except.bind] at h
  | num q5 =>
  cases h6 : d.pointHoverRadius with
  | nan => simp [datasetFieldsE, goNum, h1, h2, h3, h4, h5, h6, Bind.bind, Except.bind] at h
  | num q6 =>
  cases h7 : d.pointHoverBorderWidth with
  | nan =>
    simp [datasetFieldsE, goNum, h1, h2, h3, h4, h5, h6, h7, Bind.bind, Except.bind] at h
  | num q7 =>
    refine ⟨q1, q2, q3, q4, q5, q6, q7, ?_⟩
    simp [datasetFieldsE, goNum, h1, h2, h3, h4, h5, h6, h7, Bind.bind, Except.bind,
      pure, Except.pure] at h
    exact h.symm

/-- The key of a present optional field is its tag name. -/
theorem mem_keys_jField {x : List Char} {n : String} {v : Option Json}
    (h : x ∈ (jField n v).map Prod.fst) : x = n.data := by
  cases v with
  | none => simp [jField] at h
  | some j => simpa [jField] using h

/-- No struct field of a Dataset is named `data` (that key is spliced
in, not emitted by the struct encoding). -/
theorem data_key_not_in_core (d : Dataset) (a1 a2 a3 a4 a5 a6 a7 : Json) :
    ("data").data ∉ (datasetFieldsCore d a1 a2 a3 a4 a5 a6 a7).map Prod.fst := by
  intro hmem
  simp only [datasetFieldsCore, List.map_append, List.mem_append, or_assoc] at hmem
  rcases hmem with h|h|h|h|h|h|h|h|h|h|h|h|h|h|h|h|h|h|h|h|h|h
  all_goals exact absurd (mem_keys_jField h) (by decide)

/-- Well-formedness distributes over field append. -/
theorem wfFields_append (a b : List (List Char × Json)) :
    Json.wfFields (a ++ b) = (Json.wfFields a && Json.wfFields b) := by
  induction a with
  | nil => simp [Json.wfFields]
  | cons p a ih => simp [Json.wfFields, ih, Bool.and_assoc]

/-- An optional field is well-formed when its present value is. -/
theorem wfFields_jField (n : String) (v : Option Json)
    (h : ∀ j, v = some j → j.wf = true) :
    Json.wfFields (jField n v) = true := by
  cases v with
  | none => simp [jField, Json.wfFields]
  | some j => simp [jField, Json.wfFields, h j rfl]

/-- Tri-state boolean fields are well-formed. -/
theorem wf_boolOpt (b : GoBool) : ∀ j, boolOpt b = some j → j.wf = true := by
  cases b <;> intro j h <;> simp [boolOpt] at h <;> simp [← h, Json.wf]

/-- Optional string fields are well-formed. -/
theorem wf_strOpt (s : String) : ∀ j, strOpt s = some j → j.wf = true := by
  intro j h
  unfold strOpt at h
  split at h
  · simp at h
  · simp at h
    simp [← h, Json.wf]

/-- Optional color fields are well-formed. -/
theorem wf_mapRgba (o : Option RGBA) : ∀ j, o.map rgbaJson = some j → j.wf = true := by
  cases o with
  | none => intro j h; simp at h
  | some c =>
    intro j h
    simp at h
    simp [← h, rgbaJson, Json.wf]

/-- Conditionally omitted string fields are well-formed. -/
theorem wf_ifStr (c : Prop) [Decidable c] (s : List Char) :
    ∀ j, (if c then none else some (Json.str s)) = some j → j.wf = true := by
  intro j h
  split at h
  · simp at h
  · simp at h
    simp [← h, Json.wf]

/-- A known-well-formed mandatory field. -/
theorem wf_some (a : Json) (ha : a.wf = true) : ∀ j, some a = some j → j.wf = true := by
  intro j h
  injection h with h
  rw [← h]
  exact ha

/-- All struct fields of a Dataset are well-formed when the seven float
encodings are. -/
theorem wf_datasetFieldsCore (d : Dataset) (a1 a2 a3 a4 a5 a6 a7 : Json)
    (h1 : a1.wf = true) (h2 : a2.wf = true) (h3 : a3.wf = true)
    (h4 : a4.wf = true) (h5 : a5.wf = true) (h6 : a6.wf = true)
    (h7 : a7.wf = true) :
    Json.wfFields (datasetFieldsCore d a1 a2 a3 a4 a5 a6 a7) = true := by
  simp only [datasetFieldsCore, wfFields_append, Bool.and_eq_true]
  repeat' apply And.intro
  all_goals first
    | exact wfFields_jField _ _ (wf_boolOpt _)
    | exact wfFields_jField _ _ (wf_strOpt _)
    | exact wfFields_jField _ _ (wf_mapRgba _)
    | exact wfFields_jField _ _ (wf_ifStr _ _)
    | exact wfFields_jField _ _ (wf_some _ h1)
    | exact wfFields_jField _ _ (wf_some _ h2)
    | exact wfFields_jField _ _ (wf_some _ h3)
    | exact wfFields_jField _ _ (wf_some _ h4)
    | exact wfFields_jField _ _ (wf_some _ h5)
    | exact wfFields_jField _ _ (wf_some _ h6)
    | exact wfFields_jField _ _ (wf_some _ h7)

/-- The struct encoding of a Dataset is never the empty field list (it
always carries `borderWidth` among others), so the splice never corrupts
the document. -/
theorem datasetFieldsCore_ne_nil (d : Dataset) (a1 a2 a3 a4 a5 a6 a7 : Json) :
    datasetFieldsCore d a1 a2 a3 a4 a5 a6 a7 ≠ [] := by
  intro h
  simp [datasetFieldsCore, jField, List.append_eq_nil] at h

/-- An x/y point tree renders to exactly the bytes the series encoder
writes for that point under the default formats. -/
theorem render_xyPointJson (x y : GoFloat) :
    renderJson (xyPointJson x y) = xyPointBytes fmtF2 fmtF2 x y := by
  have ex : escapeString ['x'] = ['x'] := by decide
  have ey : escapeString ['y'] = ['y'] := by decide
  cases hy : y.isNaN <;>
    simp [xyPointJson, xyPointBytes, hy, renderJson, renderFields, renderField,
      joinComma, ex, ey]

/-- A bubble point tree renders to exactly the bytes the series encoder
writes for that point under the default formats. -/
theorem render_bubblePointJson (x y r : GoFloat) :
    renderJson (bubblePointJson x y r) = bubblePointBytes fmtF2 fmtF2 x y r := by
  have ex : escapeString ['x'] = ['x'] := by decide
  have ey : escapeString ['y'] = ['y'] := by decide
  have er : escapeString ['r'] = ['r'] := by decide
  cases hy : y.isNaN <;>
    simp [bubblePointJson, bubblePointBytes, hy, renderJson, renderFields,
      renderField, joinComma, ex, ey, er]

/-- An x/y point tree is well-formed when its x coordinate is finite
(a NaN y becomes a whitespace-padded `null`). -/
theorem wf_xyPointJson (x y : GoFloat) (hx : x.isNaN = false) :
    (xyPointJson x y).wf = true := by
  cases hy : y.isNaN with
  | true =>
    simp [xyPointJson, hy, Json.wf, Json.wfFields,
      numToken_fmtF2_finite x hx, isWsCh]
  | false =>
    simp [xyPointJson, hy, Json.wf, Json.wfFields,
      numToken_fmtF2_finite x hx, numToken_fmtF2_finite y hy]

/-- A bubble point tree is well-formed when its x and r coordinates are
finite. -/
theorem wf_bubblePointJson (x y r : GoFloat) (hx : x.isNaN = false)
    (hr : r.isNaN = false) :
    (bubblePointJson x y r).wf = true := by
  cases hy : y.isNaN with
  | true =>
    simp [bubblePointJson, hy, Json.wf, Json.wfFields,
      numToken_fmtF2_finite x hx, numToken_fmtF2_finite r hr, isWsCh]
  | false =>
    simp [bubblePointJson, hy, Json.wf, Json.wfFields,
      numToken_fmtF2_finite x hx, numToken_fmtF2_finite y hy,
      numToken_fmtF2_finite r hr]

/-- The bare-number trees of a finite series render to the formatted
values and are well-formed. -/
theorem bareTrees_spec : ∀ xs : List GoFloat, (∀ x ∈ xs, x.isNaN = false) →
    renderElems (bareTrees xs) = xs.map fmtF2
    ∧ Json.wfElems (bareTrees xs) = true := by
  intro xs
  induction xs with
  | nil => intro _; simp [bareTrees, renderElems, Json.wfElems]
  | cons x xs ih =>
    intro hx
    obtain ⟨h1, h2⟩ := ih (fun a ha => hx a (by simp [ha]))
    simp [bareTrees, renderElems, Json.wfElems, Json.wf, renderJson, h1, h2,
      numToken_fmtF2_finite x (hx x (by simp))]

/-- The x/y point trees of a series with finite X render to the emitted
points and are well-formed. -/
theorem xyTrees_spec : ∀ xs ys : List GoFloat, (∀ x ∈ xs, x.isNaN = false) →
    renderElems (xyTrees xs ys) = xyPoints fmtF2 fmtF2 xs ys
    ∧ Json.wfElems (xyTrees xs ys) = true := by
  intro xs
  induction xs with
  | nil => intro ys _; simp [xyTrees, xyPoints, renderElems, Json.wfElems]
  | cons x xs ih =>
    intro ys hx
    cases ys with
    | nil => simp [xyTrees, xyPoints, renderElems, Json.wfElems]
    | cons y ys =>
      obtain ⟨h1, h2⟩ := ih ys (fun a ha => hx a (by simp [ha]))
      simp [xyTrees, xyPoints, renderElems, Json.wfElems, h1, h2,
        render_xyPointJson, wf_xyPointJson x y (hx x (by simp))]

/-- The bubble point trees of a series with finite X and R render to the
emitted points and are well-formed. -/
theorem bubbleTrees_spec : ∀ xs ys rs : List GoFloat,
    (∀ x ∈ xs, x.isNaN = false) → (∀ r ∈ rs, r.isNaN = false) →
    renderElems (bubbleTrees xs ys rs) = bubblePoints fmtF2 fmtF2 xs ys rs
    ∧ Json.wfElems (bubbleTrees xs ys rs) = true := by
  intro xs
  induction xs with
  | nil => intro ys rs _ _; simp [bubbleTrees, bubblePoints, renderElems, Json.wfElems]
  | cons x xs ih =>
    intro ys rs hx hr
    cases ys with
    | nil => simp [bubbleTrees, bubblePoints, renderElems, Json.wfElems]
    | cons y ys =>
      cases rs with
      | nil => simp [bubbleTrees, bubblePoints, renderElems, Json.wfElems]
      | cons r rs =>
        obtain ⟨h1, h2⟩ := ih ys rs (fun a ha => hx a (by simp [ha]))
          (fun a ha => hr a (by simp [ha]))
        simp [bubbleTrees, bubblePoints, renderElems, Json.wfElems, h1, h2,
          render_bubblePointJson,
          wf_bubblePointJson x y r (hx x (by simp)) (hr r (by simp))]

/-- Every fragment the series encoder produces under the default
formats renders from a well-formed JSON tree, provided the coordinates
it formats as numbers (X, R, and — when X is empty — the substituted Y
values) are finite; a NaN among the Y coordinates is covered by the
whitespace-padded `null` tree.  So the payload hypothesis of the splice
theorem is satisfied by every such Values payload. -/
theorem valuesFragment_renders (v : ValuesData) (pay : List Char)
    (hx : ∀ x ∈ v.xs, x.isNaN = false)
    (hr : ∀ r ∈ v.rs, r.isNaN = false)
    (hsub : v.xs = [] → ∀ y ∈ v.ys, y.isNaN = false)
    (hok : marshalValuesJSON v fmtF2 fmtF2 = .ok pay) :
    ∃ pj, renderJson pj = pay ∧ pj.wf = true := by
  by_cases hxe : v.xs = []
  · by_cases hre : v.rs = []
    · have hv : v = ⟨[], v.ys, []⟩ := by
        cases v with
        | mk a b c => simp_all
      rw [hv, marshalValues_noX] at hok
      injection hok with hpay
      obtain ⟨h1, h2⟩ := bareTrees_spec v.ys (hsub hxe)
      refine ⟨.arr (bareTrees v.ys), ?_, by simp [Json.wf, h2]⟩
      rw [← hpay]
      simp [renderJson, h1]
    · rw [marshalValues_invalidShape v fmtF2 fmtF2 hxe hre] at hok
      simp at hok
  · have hx0 : v.xs.length ≠ 0 := by simpa [List.length_eq_zero] using hxe
    by_cases hre : v.rs = []
    · by_cases hye : v.ys = []
      · simp [marshalValuesJSON, hx0, marshalValuesBody, hre, hye] at hok
        obtain ⟨h1, h2⟩ := bareTrees_spec v.xs hx
        refine ⟨.arr (bareTrees v.xs), ?_, by simp [Json.wf, h2]⟩
        rw [← hok]
        simp [renderJson, h1]
      · have hy0 : 0 < v.ys.length := by simpa [List.length_pos] using hye
        by_cases hlen : v.xs.length = v.ys.length
        · simp [marshalValuesJSON, hx0, marshalValuesBody, hre, hye, hy0, hlen] at hok
          obtain ⟨h1, h2⟩ := xyTrees_spec v.xs v.ys hx
          refine ⟨.arr (xyTrees v.xs v.ys), ?_, by simp [Json.wf, h2]⟩
          rw [← hok]
          simp [renderJson, h1]
        · rw [marshalValues_xyMismatch v fmtF2 fmtF2 hxe hre hye hlen] at hok
          simp at hok
    · by_cases hlen : v.xs.length = v.ys.length ∧ v.xs.length = v.rs.length
      · have hr0 : 0 < v.rs.length := by simpa [List.length_pos] using hre
        have hcond : ¬(v.xs.length ≠ v.ys.length ∨ v.xs.length ≠ v.rs.length) := by
          push_neg
          exact hlen
        have hbody : marshalValuesJSON v fmtF2 fmtF2
            = .ok (('[' :: joinComma (bubblePoints fmtF2 fmtF2 v.xs v.ys v.rs))
              ++ [']']) := by
          simp only [marshalValuesJSON, marshalValuesBody, hx0, hr0, hcond,
            if_false, if_true]
        rw [hbody] at hok
        injection hok with hpay
        obtain ⟨h1, h2⟩ := bubbleTrees_spec v.xs v.ys v.rs hx hr
        refine ⟨.arr (bubbleTrees v.xs v.ys v.rs), ?_, by simp [Json.wf, h2]⟩
        rw [← hpay]
        simp [renderJson, h1]
      · rw [marshalValues_bubbleMismatch v fmtF2 fmtF2 hxe hre hlen] at hok
        simp at hok

/-- C4: whenever the dataset encoder succeeds on a payload that itself
encoded successfully to a well-formed JSON fragment, the output is valid
JSON — the rendering of a well-formed JSON object — containing exactly
one top-level `"data"` key, whose value is byte-for-byte the
independently encoded payload fragment. -/
theorem dataset_marshal_splice (gxf gyf : GoFmt) (d : Dataset)
    (out pay : List Char) (pj : Json)
    (hok : datasetMarshalJSON gxf gyf d = .ok out)
    (hpay : datasetPayloadBytes gxf gyf d = .ok (some pay))
    (hpj : renderJson pj = pay) (hwf : pj.wf = true) :
    ∃ fs, datasetFieldsE d = .ok fs
      ∧ out = renderJson (.obj (fs ++ [(("data").data, pj)]))
      ∧ (Json.obj (fs ++ [(("data").data, pj)])).wf = true
      ∧ ((fs ++ [(("data").data, pj)]).map Prod.fst).count (("data").data) = 1 := by
  cases hfs : datasetFieldsE d with
  | error e =>
    simp [datasetMarshalJSON, hpay, hfs, Bind.bind, Except.bind] at hok
  | ok fs =>
    have heq := datasetMarshal_eq gxf gyf d (some pay) fs hpay hfs
    rw [heq] at hok
    injection hok with hout
    obtain ⟨q1, q2, q3, q4, q5, q6, q7, hfsEq⟩ := datasetFieldsE_ok d fs hfs
    have hne : fs ≠ [] := by
      rw [hfsEq]
      exact datasetFieldsCore_ne_nil d _ _ _ _ _ _ _
    refine ⟨fs, rfl, ?_, ?_, ?_⟩
    · rw [← hout]
      show spliceBytes (renderJson (.obj fs)) ((some pay).getD []) = _
      rw [Option.getD_some, ← hpj]
      exact splice_eq_renderObj fs pj hne
    · simp only [Json.wf]
      rw [wfFields_append]
      have hcore : Json.wfFields fs = true := by
        rw [hfsEq]
        exact wf_datasetFieldsCore d _ _ _ _ _ _ _
          (by simp [Json.wf, numToken_encodeRat])
          (by simp [Json.wf, numToken_encodeRat])
          (by simp [Json.wf, numToken_encodeRat])
          (by simp [Json.wf, numToken_encodeRat])
          (by simp [Json.wf, numToken_encodeRat])
          (by simp [Json.wf, numToken_encodeRat])
          (by simp [Json.wf, numToken_encodeRat])
      simp [hcore, Json.wfFields, hwf]
    · rw [List.map_append, List.count_append]
      have h0 : (fs.map Prod.fst).count (("data").data) = 0 := by
        apply List.count_eq_zero.2
        rw [hfsEq]
        exact data_key_not_in_core d _ _ _ _ _ _ _
      simp [h0]

set_option maxRecDepth 10000 in
/-- Witness for C4 at a Values payload containing a NaN y coordinate
(X=[1,2], Y=[3,NaN], R=[], default formats, all styling fields at their
zero values): the fragment with its `"y": null ` spaces renders from the
whitespace-padded point trees, and the spliced dataset output is that
valid JSON object with its single `"data"` key. -/
theorem dataset_marshal_splice_witness :
    ∃ fs, datasetFieldsE
        { data := { values := some ⟨[.num 1, .num 2], [.num 3, .nan], []⟩ } } = .ok fs
      ∧ ("\x7b\"borderWidth\":0,\"lineTension\":0,\"pointBorderWidth\":0,\"pointRadius\":0,\"pointHitRadius\":0,\"pointHoverRadius\":0,\"pointHoverBorderWidth\":0,\"data\":[\x7b\"x\":1.00,\"y\":3.00\x7d,\x7b\"x\":2.00,\"y\": null \x7d]\x7d").data
          = renderJson (.obj (fs ++ [(("data").data,
              Json.arr [xyPointJson (.num 1) (.num 3), xyPointJson (.num 2) .nan])]))
      ∧ (Json.obj (fs ++ [(("data").data,
          Json.arr [xyPointJson (.num 1) (.num 3), xyPointJson (.num 2) .nan])])).wf
          = true
      ∧ ((fs ++ [(("data").data,
          Json.arr [xyPointJson (.num 1) (.num 3), xyPointJson (.num 2) .nan])]).map
            Prod.fst).count (("data").data) = 1 :=
  dataset_marshal_splice fmtF2 fmtF2
    { data := { values := some ⟨[.num 1, .num 2], [.num 3, .nan], []⟩ } }
    (("\x7b\"borderWidth\":0,\"lineTension\":0,\"pointBorderWidth\":0,\"pointRadius\":0,\"pointHitRadius\":0,\"pointHoverRadius\":0,\"pointHoverBorderWidth\":0,\"data\":[\x7b\"x\":1.00,\"y\":3.00\x7d,\x7b\"x\":2.00,\"y\": null \x7d]\x7d").data)
    (("[\x7b\"x\":1.00,\"y\":3.00\x7d,\x7b\"x\":2.00,\"y\": null \x7d]").data)
    (Json.arr [xyPointJson (.num 1) (.num 3), xyPointJson (.num 2) .nan])
    (by decide) (by decide) (by decide) (by decide)

example : fmtF2 (.num 1) = ("1.00").data := by decide
example : fmtF2 (.num 3) = ("3.00").data := by decide
example : fmtF2 .nan = ("NaN").data := by decide
example : encodeRat 0 = ("0").data := by decide
example : encodeRat (-3 : ℚ) = ("-3").data := by decide
example :
    marshalValuesJSON ⟨[.num 1, .num 2], [.num 3, .nan], []⟩ fmtF2 fmtF2
      = .ok ("[\x7b\"x\":1.00,\"y\":3.00\x7d,\x7b\"x\":2.00,\"y\": null \x7d]").data := by
  decide
